import Mathlib

/-!
Verification of the execution-orchestration engine of `strawberryfields`
(`src/strawberryfields/engine.py`): the `Result` container, the chaining
algorithm of `BaseEngine._run`, `BaseEngine.reset`, the local dispatch of
`LocalEngine`, and the remote job lifecycle of `StarshipEngine`.

The embedding is shallow and executable.  Pure Python functions become Lean
functions; the mutable engine object becomes explicit state passing; raised
exceptions become `Except` errors.  The one Python subtlety that matters to
the chaining algorithm is modelled faithfully: `BaseEngine._run` stores
`self.samples = map(_normalize_sample, reg_refs)`, a lazy single-use
iterator, so the model records the produced values together with a
`consumed` flag (see `Samples`).
-/

deriving instance DecidableEq for Except

namespace SFEngine

/-- An atomic Python sample value: `pynone` models Python `None` (the
"no value" placeholder) and `num` a measured scalar.  The engine only ever
nests sample values one level deep (a per-trial list of scalars or
placeholders), so atoms and one-level lists cover every value it handles. -/
inductive PyAtom where
  | pynone
  | num (n : Int)
deriving DecidableEq, Repr

/-- A Python run-time value held by a register reference or a sample list:
either an atom (`None` or a measured scalar) or a Python list of atoms (one
value per trial for repeated-shot runs). -/
inductive PyVal where
  | atom (a : PyAtom)
  | list (xs : List PyAtom)
deriving DecidableEq, Repr

/-- Python `None` as a sample value. -/
def pnone : PyVal := PyVal.atom PyAtom.pynone

/-- A measured scalar as a sample value. -/
def pnum (n : Int) : PyVal := PyVal.atom (PyAtom.num n)

/-- Modelled from the spec: an operation is either a measurement, storing a
measured value into the register references it targets (one value per trial
when `shots > 1`), or a non-measuring gate.  The numerical mechanics of the
backends are explicitly out of scope, so the measured value is carried by the
operation itself, which keeps execution deterministic and executable. -/
inductive OpKind where
  | measure (value : Int)
  | gate
deriving DecidableEq, Repr

/-- A command pairs an operation with the ordered register indices it targets
(`cmd.op` and `cmd.reg` in `engine.py`). -/
structure Cmd where
  op : OpKind
  reg : List Nat
deriving DecidableEq, Repr

/-- Modelled from the spec: the program-unit contract consumed by the engine
(`Program` lives outside `engine.py`): a name, the declared register count
`init_num_subsystems`, the command list `circuit`, the register references
`reg_refs` holding per register index the measured value (`pnone` when
unmeasured), the backend identifier the unit was compiled for, and the lock
flag. -/
structure Program where
  name : String
  init_num_subsystems : Nat
  circuit : List Cmd
  reg_refs : List PyVal
  backend : Option String
  locked : Bool
deriving DecidableEq, Repr

/-- Modelled from the spec: `Program.can_follow` is "a compatibility predicate
comparing register layouts"; modelled as equality of declared register
counts. -/
def can_follow (p prev : Program) : Bool :=
  p.init_num_subsystems == prev.init_num_subsystems

/-- Modelled from the spec: `Program.compile` returns the unit bound to the
target backend identifier; commands and register references are preserved. -/
def compile (p : Program) (backend_name : String) : Program :=
  { p with backend := some backend_name }

/-- Modelled from the spec: `Program.lock` marks the unit as locked. -/
def lock (p : Program) : Program :=
  { p with locked := true }

/-- Modelled from the spec: `Program._clear_regrefs` (used by
`BaseEngine.reset`) erases the measured values of all register references,
leaving the register structure and the command list unchanged. -/
def clear_regrefs (p : Program) : Program :=
  { p with reg_refs := p.reg_refs.map (fun _ => pnone) }

/-- The value a measurement stores into a register reference: a scalar for a
single shot, one value per trial (`shots` copies) otherwise, matching the
sample shapes documented in `engine.py`. -/
def measuredVal (shots : Nat) (v : Int) : PyVal :=
  if shots > 1 then PyVal.list (List.replicate shots (PyAtom.num v)) else pnum v

/-- Store value `v` into the register references listed in `targets`. -/
def storeMeasured (rs : List PyVal) (targets : List Nat) (v : PyVal) : List PyVal :=
  targets.foldl (fun acc t => acc.set t v) rs

/-- One `cmd.op.apply(cmd.reg, backend, **kwargs)` call as it affects register
references: a measurement stores its per-shot value into the targeted
registers, a gate leaves them unchanged. -/
def applyCmd (shots : Nat) (rs : List PyVal) (c : Cmd) : List PyVal :=
  match c.op with
  | OpKind.measure v => storeMeasured rs c.reg (measuredVal shots v)
  | OpKind.gate => rs

/-- Calls made on the backend capability interface, recorded for auditing the
initialization discipline of the engine. -/
inductive BackendEvent where
  | beginCircuit (n : Nat)
  | applyOp (c : Cmd)
deriving DecidableEq, Repr

/-- `LocalEngine._run_program`: apply every command of the program in order to
the backend.  Returns the program with its updated register references, the
backend calls made, and the list of applied commands. -/
def local_run_program (shots : Nat) (p : Program) : Program × List BackendEvent × List Cmd :=
  let rs := p.circuit.foldl (fun acc c => applyCmd shots acc c) p.reg_refs
  ({ p with reg_refs := rs }, p.circuit.map BackendEvent.applyOp, p.circuit)

/-- `BaseEngine.samples`: either Python `None` (fresh or reset engine) or the
`map(_normalize_sample, reg_refs)` iterator built at `engine.py` line 262.  A
Python `map` is lazy and can be drained only once, so the model records the
values it yields together with a `consumed` flag that is set once the
iterator has been drained. -/
inductive Samples where
  | pyNone
  | mapIter (vals : List PyVal) (consumed : Bool)
deriving DecidableEq, Repr

/-- Errors raised by the engine: the register-mismatch `RuntimeError` of
`BaseEngine._run` (with the offending position and program name), the
`TypeError` from iterating Python `None`, the duplicate-submission
`TypeError` of `StarshipEngine._run_program`, the job-failure `Exception`,
and the unrecoverable-interruption `Exception`. -/
inductive RunError where
  | regMismatch (pos : Nat) (name : String)
  | pyTypeError
  | duplicateSubmission
  | jobFailed
  | jobUnrecoverable
deriving DecidableEq, Repr

/-- The state of a `BaseEngine` instance: backend name, backend options,
run history (`run_progs`) and cached samples. -/
structure EngineState where
  backend_name : String
  backend_options : List (String × Int)
  run_progs : List Program
  samples : Samples
deriving DecidableEq, Repr

/-- A freshly constructed engine: empty run history, `samples = None`. -/
def freshEngine (backend_name : String) (opts : List (String × Int)) : EngineState :=
  { backend_name := backend_name, backend_options := opts,
    run_progs := [], samples := Samples.pyNone }

/-- Python `dict` assignment `d[k] = v` on an insertion-ordered association
list: override the entry when the key is present (a Python dict holds each
key once), append it at the end otherwise. -/
def dictSet (d : List (String × Int)) (k : String) (v : Int) : List (String × Int) :=
  match d with
  | [] => [(k, v)]
  | kv :: rest => if kv.1 == k then (k, v) :: rest else kv :: dictSet rest k v

/-- Python `old.update(new)`: assign every entry of `new` into `old`. -/
def dictUpdate (old new : List (String × Int)) : List (String × Int) :=
  new.foldl (fun acc kv => dictSet acc kv.1 kv.2) old

/-- Python `d.get(k)`: first entry with the given key, if any. -/
def dictGet (d : List (String × Int)) (k : String) : Option Int :=
  (d.find? (fun kv => kv.1 == k)).map Prod.snd

/-- `BaseEngine.reset` (`engine.py` lines 149-153): merge the caller-supplied
backend options into the stored ones, call `_clear_regrefs` on every
previously run program, clear the run history and the cached samples.  The
second component returns the previously run program objects as they stand
after their in-place `_clear_regrefs` call. -/
def reset (st : EngineState) (backend_options : List (String × Int)) :
    EngineState × List Program :=
  ({ st with backend_options := dictUpdate st.backend_options backend_options,
             run_progs := [], samples := Samples.pyNone },
   st.run_progs.map clear_regrefs)

/-- `BaseEngine._run._normalize_sample` (`engine.py` lines 216-220): a
never-measured register value (`None`) is replaced by a list of `shots`
placeholders when `shots > 1`; every other value is returned unchanged. -/
def normalize_sample (shots : Nat) (val : PyVal) : PyVal :=
  if val = pnone ∧ shots > 1 then
    PyVal.list (List.replicate shots PyAtom.pynone)
  else val

/-- The copy-through of `engine.py` lines 250-251:
`for k, v in enumerate(self.samples): p.reg_refs[k].val = v`. -/
def copyVals : List PyVal → List PyVal → List PyVal
  | rs, [] => rs
  | [], _ => []
  | _ :: rs, v :: vs => v :: copyVals rs vs

/-- Iterating `self.samples`: Python `None` is not iterable (`TypeError`); a
`map` iterator yields its values the first time and nothing once consumed,
and is left consumed either way. -/
def drain : Samples → Except RunError (List PyVal × Samples)
  | Samples.pyNone => Except.error RunError.pyTypeError
  | Samples.mapIter vals consumed =>
      Except.ok (if consumed then [] else vals, Samples.mapIter vals true)

/-- The compile-if-needed step of `engine.py` lines 253-255: `if p.backend !=
self.backend_name: p = p.compile(self.backend_name, **compile_options)`. -/
def compileIfNeeded (p : Program) (backend_name : String) : Program :=
  if p.backend = some backend_name then p else compile p backend_name

/-- The tail of one iteration of the loop in `BaseEngine._run` (local path):
compile the program for the backend if needed, lock it, execute it
(`_run_program`), append it to the run history, and rebuild the cached
sample map from its register references in index order. -/
def execSeg (shots : Nat) (p : Program) (st : EngineState) :
    Program × EngineState × List BackendEvent :=
  let p2 := lock (compileIfNeeded p st.backend_name)
  let r := local_run_program shots p2
  let p3 := r.1
  (p3,
   { st with run_progs := st.run_progs ++ [p3],
             samples := Samples.mapIter (p3.reg_refs.map (normalize_sample shots)) false },
   r.2.1)

/-- The main loop of `BaseEngine._run` (`engine.py` lines 238-263), local
path: for each program, initialize the backend on the first segment of a
fresh sequence, otherwise check `can_follow` against the previous segment and
copy the cached samples into the register references; then compile, lock,
execute, append to history and rebuild the cached samples.  Returns the final
engine state, the backend calls made, and the error raised, if any. -/
def runSegs (shots : Nat) :
    List Program → Option Program → EngineState →
    EngineState × List BackendEvent × Option RunError
  | [], _, st => (st, [], Option.none)
  | p :: rest, Option.none, st =>
      let e := execSeg shots p st
      let r := runSegs shots rest (some e.1) e.2.1
      (r.1, BackendEvent.beginCircuit p.init_num_subsystems :: e.2.2 ++ r.2.1, r.2.2)
  | p :: rest, some pr, st =>
      if can_follow p pr then
        match drain st.samples with
        | Except.error e => (st, [], some e)
        | Except.ok (vals, s') =>
            let p' := { p with reg_refs := copyVals p.reg_refs vals }
            let e := execSeg shots p' { st with samples := s' }
            let r := runSegs shots rest (some e.1) e.2.1
            (r.1, e.2.2 ++ r.2.1, r.2.2)
      else (st, [], some (RunError.regMismatch st.run_progs.length p.name))

/-- `BaseEngine._run`, local path: take the previous segment from the run
history, run the given programs, then build the `Result` sample list from
`list(self.samples)` — which drains the cached map iterator.  Returns the
raw `Result` sample list (or the raised error), the final engine state, and
the backend calls made. -/
def localRun (shots : Nat) (progs : List Program) (st : EngineState) :
    Except RunError (List PyVal) × EngineState × List BackendEvent :=
  match runSegs shots progs st.run_progs.getLast? st with
  | (st1, evs, some e) => (Except.error e, st1, evs)
  | (st1, evs, Option.none) =>
      match drain st1.samples with
      | Except.error e => (Except.error e, st1, evs)
      | Except.ok (vals, s') => (Except.ok vals, { st1 with samples := s' }, evs)

/-- Whether a sample value is a Python list. -/
def isListVal : PyVal → Bool
  | PyVal.list _ => true
  | _ => false

/-- The length of a sample value when it is a Python list, 0 otherwise. -/
def entryLen : PyVal → Nat
  | PyVal.list xs => xs.length
  | _ => 0

/-- The `i`-th element of a per-register trial list (guard value for the
non-list case, which `Result` never reaches on a multi-dimensional input). -/
def getEntry : PyVal → Nat → PyAtom
  | PyVal.list xs, i => xs.getD i PyAtom.pynone
  | PyVal.atom a, _ => a

/-- The test `len(shape(samples)) > 1` of `Result.__init__`: the raw sample
collection has more than one dimension exactly when it is non-empty and all
its entries are lists of one common length (otherwise `numpy` sees a flat,
possibly ragged, one-dimensional object collection). -/
def multiDim (samples : List PyVal) : Bool :=
  match samples with
  | [] => false
  | x :: xs => isListVal x && xs.all (fun y => isListVal y && entryLen y == entryLen x)

/-- `numpy.stack(samples, 1)` on a rectangular (registers, trials) collection:
row `i` of the result collects the `i`-th trial of every register, so the
result has shape (trials, registers). -/
def stack1 (samples : List PyVal) : List PyVal :=
  (List.range (entryLen (samples.headD pnone))).map
    (fun i => PyVal.list (samples.map (fun v => getEntry v i)))

/-- `Result.__init__` (`engine.py` lines 94-101): a raw sample collection with
more than one dimension is restacked along axis 1; a one-dimensional
collection is stored unchanged. -/
def resultSamples (samples : List PyVal) : List PyVal :=
  if multiDim samples then stack1 samples else samples

/-- A remote job handle: `job.id` is present only once the server has
acknowledged the submission. -/
structure Job where
  id : Option Nat
deriving DecidableEq, Repr

/-- The service-side status a `job.reload()` call can observe. -/
inductive JobStatus where
  | queued
  | complete
  | failed
deriving DecidableEq, Repr

/-- The environment script for one remote job: the identifier the server
assigns at creation (if any), the statuses observed by successive
`job.reload()` calls, the eventual result payload, and the poll iteration
(if any) at which a `KeyboardInterrupt` arrives during the `sleep`. -/
structure JobScript where
  jobId : Option Nat
  statuses : List JobStatus
  payload : List PyVal
  interruptAt : Option Nat
deriving DecidableEq, Repr

/-- How the polling loop of `StarshipEngine._run_program` ends. -/
inductive PollOutcome where
  | completed
  | failed
  | interrupted
deriving DecidableEq, Repr

/-- The polling loop of `StarshipEngine._run_program` (`engine.py` lines
449-453).  A job is not complete when created, so each iteration reloads the
job (observing the next scripted status), raises on a failed status, then
sleeps — where a scripted `KeyboardInterrupt` may arrive — after which the
loop condition re-checks completion.  Returns `none` when the script ends
with the job still pending (the Python loop would poll forever). -/
def pollLoop : List JobStatus → Option Nat → Option PollOutcome
  | [], _ => Option.none
  | s :: rest, intr =>
      if s = JobStatus.failed then some PollOutcome.failed
      else
        match intr with
        | some 0 => some PollOutcome.interrupted
        | some (n + 1) =>
            if s = JobStatus.complete then some PollOutcome.completed
            else pollLoop rest (some n)
        | Option.none =>
            if s = JobStatus.complete then some PollOutcome.completed
            else pollLoop rest Option.none

/-- Interactions with the remote job service (and the identifier report
printed on interruption), recorded for auditing. -/
inductive ServiceEvent where
  | createJob
  | fetchResult
  | printQueued (id : Nat)
deriving DecidableEq, Repr

/-- The state of a `StarshipEngine` instance: the base engine state plus the
outstanding-job list `self.jobs`. -/
structure StarState where
  base : EngineState
  jobs : List Job
deriving DecidableEq, Repr

/-- `StarshipEngine.__init__`: backend `chip0`, no options, no jobs. -/
def freshStarship : StarState :=
  { base := freshEngine "chip0" [], jobs := [] }

/-- `StarshipEngine.reset`: the base reset plus clearing the outstanding-job
list, permitting a new submission. -/
def starshipReset (st : StarState) (backend_options : List (String × Int)) :
    StarState × List Program :=
  let r := reset st.base backend_options
  ({ base := r.1, jobs := [] }, r.2)

/-- `StarshipEngine._run_program` (`engine.py` lines 420-462): refuse when a
job is already queued (before any service interaction); otherwise create the
job, append it to `self.jobs`, and poll.  A failed status raises; completion
fetches and returns the payload; a `KeyboardInterrupt` either reports the
server-assigned identifier and returns `None` (the job stays in `self.jobs`)
or, when no identifier was ever assigned, raises.  Returns `none` when the
polling loop never terminates under the script. -/
def starship_run_program (st : StarState) (script : JobScript) :
    Option (Except RunError (Option (List PyVal)) × StarState × List ServiceEvent) :=
  if st.jobs.isEmpty then
    let job : Job := { id := script.jobId }
    let st1 : StarState := { st with jobs := st.jobs ++ [job] }
    match pollLoop script.statuses script.interruptAt with
    | Option.none => Option.none
    | some PollOutcome.failed =>
        some (Except.error RunError.jobFailed, st1, [ServiceEvent.createJob])
    | some PollOutcome.completed =>
        some (Except.ok (some script.payload), st1,
              [ServiceEvent.createJob, ServiceEvent.fetchResult])
    | some PollOutcome.interrupted =>
        match script.jobId with
        | some i =>
            some (Except.ok Option.none, st1,
                  [ServiceEvent.createJob, ServiceEvent.printQueued i])
        | Option.none =>
            some (Except.error RunError.jobUnrecoverable, st1, [ServiceEvent.createJob])
  else some (Except.error RunError.duplicateSubmission, st, [])

/-- The hardware-backend branch of `BaseEngine._run` (`engine.py` lines
230-236) as taken by every `StarshipEngine` run: compile the first program
for the backend, lock it, append it to the run history, run it remotely, and
wrap the returned payload in a `Result`. -/
def starshipRun (st : StarState) (p : Program) (script : JobScript) :
    Option (Except RunError (Option (List PyVal)) × StarState × List ServiceEvent) :=
  let p1 := lock (compile p st.base.backend_name)
  let st1 : StarState :=
    { st with base := { st.base with run_progs := st.base.run_progs ++ [p1] } }
  match starship_run_program st1 script with
  | Option.none => Option.none
  | some (res, st2, evs) => some (res.map (Option.map resultSamples), st2, evs)

/-! ## Theorems -/

/-- The continuation program of the C1 failing input: two registers, measures
register 0 to the value 7. -/
def chainA : Program :=
  { name := "A", init_num_subsystems := 2,
    circuit := [{ op := OpKind.measure 7, reg := [0] }],
    reg_refs := [pnone, pnone], backend := Option.none, locked := false }

/-- The continuation program of the C1 failing input: two registers, no
commands, compatible with `chainA`. -/
def chainB : Program :=
  { name := "B", init_num_subsystems := 2, circuit := [],
    reg_refs := [pnone, pnone], backend := Option.none, locked := false }

/-- C1: chaining equivalence fails on the code.  Running `[chainA, chainB]`
in one call copies A's measured value (7) into B's register references, so
the final samples are `[7, None]`; running A and then B in two single-unit
calls on the same engine yields `[None, None]`, because
`Result(list(self.samples))` at the end of the first call has already drained
the lazy `map` iterator stored in `self.samples`, so the second call's
copy-through loop copies nothing.  This contradicts the documented type of
`samples` (`List[List[Number]]`) and the documented feed-forward copy. -/
theorem chaining_equivalence_fails :
    (localRun 1 [chainA, chainB] (freshEngine "fock" [])).1 =
      Except.ok [pnum 7, pnone] ∧
    (localRun 1 [chainB] (localRun 1 [chainA] (freshEngine "fock" [])).2.1).1 =
      Except.ok [pnone, pnone] ∧
    (localRun 1 [chainA, chainB] (freshEngine "fock" [])).1 ≠
      (localRun 1 [chainB] (localRun 1 [chainA] (freshEngine "fock" [])).2.1).1 := by
  refine ⟨by decide, by decide, by decide⟩

/-- C2 counterexample: for a 2-register, 3-trial raw sample collection the
claimed (registers, trials) layout would leave the collection unchanged, but
`Result.__init__` stores the transpose — 3 rows of 2 entries, i.e.
(trials, registers), matching its own docstring `shape == (shots, modes)`. -/
theorem result_not_register_major :
    resultSamples
        [PyVal.list [PyAtom.num 1, PyAtom.num 2, PyAtom.num 3],
         PyVal.list [PyAtom.num 4, PyAtom.num 5, PyAtom.num 6]] =
      [PyVal.list [PyAtom.num 1, PyAtom.num 4],
       PyVal.list [PyAtom.num 2, PyAtom.num 5],
       PyVal.list [PyAtom.num 3, PyAtom.num 6]] ∧
    resultSamples
        [PyVal.list [PyAtom.num 1, PyAtom.num 2, PyAtom.num 3],
         PyVal.list [PyAtom.num 4, PyAtom.num 5, PyAtom.num 6]] ≠
      [PyVal.list [PyAtom.num 1, PyAtom.num 2, PyAtom.num 3],
       PyVal.list [PyAtom.num 4, PyAtom.num 5, PyAtom.num 6]] := by
  refine ⟨by decide, by decide⟩

/-- C2 (amended): a raw sample collection with more than one dimension is
reshaped so that the trial axis becomes the FIRST axis — row `i` of the
stored samples collects the `i`-th trial of every register, so the layout is
(trials, registers) — while a one-dimensional collection is stored
unchanged. -/
theorem result_samples_layout (samples : List PyVal) (S : Nat)
    (hS : entryLen (samples.headD pnone) = S) :
    (multiDim samples = true →
      (resultSamples samples).length = S ∧
      ∀ i, i < S →
        (resultSamples samples).getD i pnone =
          PyVal.list (samples.map (fun v => getEntry v i))) ∧
    (multiDim samples = false → resultSamples samples = samples) := by
  constructor
  · intro h
    have hres : resultSamples samples = stack1 samples := by
      simp [resultSamples, h]
    constructor
    · rw [hres]; unfold stack1
      rw [List.length_map, List.length_range]; exact hS
    · intro i hi
      rw [hres]; unfold stack1
      have hi' : i < entryLen (samples.headD pnone) := by rw [hS]; exact hi
      rw [List.getD_eq_getElem?_getD, List.getElem?_map, List.getElem?_range hi']
      rfl
  · intro h
    simp [resultSamples, h]

/-- Witness for `result_samples_layout` at a concrete 2-register, 2-trial
collection. -/
theorem result_samples_layout_witness :
    (multiDim [PyVal.list [PyAtom.num 1, PyAtom.num 2],
               PyVal.list [PyAtom.num 3, PyAtom.num 4]] = true →
      (resultSamples [PyVal.list [PyAtom.num 1, PyAtom.num 2],
                      PyVal.list [PyAtom.num 3, PyAtom.num 4]]).length = 2 ∧
      ∀ i, i < 2 →
        (resultSamples [PyVal.list [PyAtom.num 1, PyAtom.num 2],
                        PyVal.list [PyAtom.num 3, PyAtom.num 4]]).getD i pnone =
          PyVal.list ([PyVal.list [PyAtom.num 1, PyAtom.num 2],
                       PyVal.list [PyAtom.num 3, PyAtom.num 4]].map
            (fun v => getEntry v i))) ∧
    (multiDim [PyVal.list [PyAtom.num 1, PyAtom.num 2],
               PyVal.list [PyAtom.num 3, PyAtom.num 4]] = false →
      resultSamples [PyVal.list [PyAtom.num 1, PyAtom.num 2],
                     PyVal.list [PyAtom.num 3, PyAtom.num 4]] =
        [PyVal.list [PyAtom.num 1, PyAtom.num 2],
         PyVal.list [PyAtom.num 3, PyAtom.num 4]]) :=
  result_samples_layout
    [PyVal.list [PyAtom.num 1, PyAtom.num 2], PyVal.list [PyAtom.num 3, PyAtom.num 4]]
    2 (by decide)

/-- C5 counterexample: a job whose first reload reports a failed status
raises the submission/completion error, yet the outstanding-job list still
contains the job afterwards — it is not empty as the claim states. -/
theorem clean_failure_retains_job :
    starship_run_program freshStarship
        { jobId := some 1, statuses := [JobStatus.failed], payload := [],
          interruptAt := Option.none } =
      some (Except.error RunError.jobFailed,
            { base := freshEngine "chip0" [], jobs := [{ id := some 1 }] },
            [ServiceEvent.createJob]) ∧
    ({ base := freshEngine "chip0" [], jobs := [{ id := some 1 }] } : StarState).jobs ≠
      [] := by
  refine ⟨by decide, by decide⟩

/-- C5 (amended): a job whose service-side status becomes failed during
polling surfaces the submission/completion error, and the outstanding-job
list afterwards contains that job — in the clean-failure case just as in the
interrupted case — so the engine must be reset before resubmitting. -/
theorem remote_failure_error_job_retained (st : StarState) (script : JobScript)
    (hempty : st.jobs = [])
    (hfail : pollLoop script.statuses script.interruptAt = some PollOutcome.failed) :
    starship_run_program st script =
      some (Except.error RunError.jobFailed,
            { st with jobs := st.jobs ++ [{ id := script.jobId }] },
            [ServiceEvent.createJob]) := by
  simp [starship_run_program, hempty, hfail]

/-- Witness for `remote_failure_error_job_retained` on a fresh engine and a
job that fails at the second poll. -/
theorem remote_failure_error_job_retained_witness :
    starship_run_program freshStarship
        { jobId := some 2, statuses := [JobStatus.queued, JobStatus.failed],
          payload := [], interruptAt := Option.none } =
      some (Except.error RunError.jobFailed,
            { freshStarship with jobs := freshStarship.jobs ++ [{ id := some 2 }] },
            [ServiceEvent.createJob]) :=
  remote_failure_error_job_retained freshStarship
    { jobId := some 2, statuses := [JobStatus.queued, JobStatus.failed],
      payload := [], interruptAt := Option.none }
    rfl (by decide)

/-- C6: submitting while a job is outstanding fails immediately with the
duplicate-submission error, leaves the engine state unchanged and performs no
service interaction; after a reset (which clears the outstanding-job list)
submission succeeds again. -/
theorem duplicate_submission_blocked (st : StarState) (script script2 : JobScript)
    (opts : List (String × Int))
    (hbusy : st.jobs ≠ [])
    (hok : pollLoop script2.statuses script2.interruptAt = some PollOutcome.completed) :
    starship_run_program st script =
      some (Except.error RunError.duplicateSubmission, st, []) ∧
    starship_run_program (starshipReset st opts).1 script2 =
      some (Except.ok (some script2.payload),
            { (starshipReset st opts).1 with jobs := [{ id := script2.jobId }] },
            [ServiceEvent.createJob, ServiceEvent.fetchResult]) := by
  constructor
  · have hne : st.jobs.isEmpty = false := by
      cases h : st.jobs with
      | nil => exact absurd h hbusy
      | cons a l => rfl
    simp [starship_run_program, hne]
  · have hjobs : (starshipReset st opts).1.jobs = [] := rfl
    simp [starship_run_program, hjobs, hok]

/-- Witness for `duplicate_submission_blocked`: an engine with one queued job
refuses a new submission, and accepts one after reset. -/
theorem duplicate_submission_blocked_witness :
    starship_run_program { base := freshEngine "chip0" [], jobs := [{ id := some 9 }] }
        { jobId := some 3, statuses := [], payload := [], interruptAt := Option.none } =
      some (Except.error RunError.duplicateSubmission,
            { base := freshEngine "chip0" [], jobs := [{ id := some 9 }] }, []) ∧
    starship_run_program
        (starshipReset { base := freshEngine "chip0" [], jobs := [{ id := some 9 }] } []).1
        { jobId := some 3, statuses := [JobStatus.complete], payload := [pnum 4],
          interruptAt := Option.none } =
      some (Except.ok (some [pnum 4]),
            { (starshipReset { base := freshEngine "chip0" [], jobs := [{ id := some 9 }] } []).1
                with jobs := [{ id := some 3 }] },
            [ServiceEvent.createJob, ServiceEvent.fetchResult]) :=
  duplicate_submission_blocked
    { base := freshEngine "chip0" [], jobs := [{ id := some 9 }] }
    { jobId := some 3, statuses := [], payload := [], interruptAt := Option.none }
    { jobId := some 3, statuses := [JobStatus.complete], payload := [pnum 4],
      interruptAt := Option.none }
    [] (by decide) (by decide)

/-- C7: when the remote wait is interrupted, a job that already has a
server-assigned identifier stays in the outstanding-job list and its
identifier is reported without raising (the run returns `None`); a job that
never received an identifier escalates to a hard error. -/
theorem interrupted_wait_recovery (st : StarState) (script : JobScript)
    (hempty : st.jobs = [])
    (hintr : pollLoop script.statuses script.interruptAt = some PollOutcome.interrupted) :
    starship_run_program st script =
      some (match script.jobId with
            | some i =>
                (Except.ok Option.none,
                 { st with jobs := st.jobs ++ [{ id := some i }] },
                 [ServiceEvent.createJob, ServiceEvent.printQueued i])
            | Option.none =>
                (Except.error RunError.jobUnrecoverable,
                 { st with jobs := st.jobs ++ [{ id := Option.none }] },
                 [ServiceEvent.createJob])) := by
  cases hid : script.jobId with
  | none => simp [starship_run_program, hempty, hintr, hid]
  | some i => simp [starship_run_program, hempty, hintr, hid]

/-- Witness for `interrupted_wait_recovery`: an interrupt at the first sleep
of a job with server identifier 5 leaves the job queued and reports it. -/
theorem interrupted_wait_recovery_witness :
    starship_run_program freshStarship
        { jobId := some 5, statuses := [JobStatus.queued, JobStatus.queued],
          payload := [], interruptAt := some 0 } =
      some (match (some 5 : Option Nat) with
            | some i =>
                (Except.ok Option.none,
                 { freshStarship with jobs := freshStarship.jobs ++ [{ id := some i }] },
                 [ServiceEvent.createJob, ServiceEvent.printQueued i])
            | Option.none =>
                (Except.error RunError.jobUnrecoverable,
                 { freshStarship with jobs := freshStarship.jobs ++ [{ id := Option.none }] },
                 [ServiceEvent.createJob])) :=
  interrupted_wait_recovery freshStarship
    { jobId := some 5, statuses := [JobStatus.queued, JobStatus.queued],
      payload := [], interruptAt := some 0 }
    rfl (by decide)

/-- C10: on the remote dispatch path the first program is compiled, locked
and appended to the run history before the duplicate-job check and before
any submission, so every remote run that returns — including every failing
one — leaves the locked, compiled unit in the run history; in the
duplicate-submission case no service interaction has happened at all. -/
theorem hardware_run_locked_in_history (st : StarState) (p : Program)
    (script : JobScript) (res : Except RunError (Option (List PyVal)))
    (st2 : StarState) (evs : List ServiceEvent)
    (h : starshipRun st p script = some (res, st2, evs)) :
    st2.base.run_progs = st.base.run_progs ++ [lock (compile p st.base.backend_name)] ∧
    (lock (compile p st.base.backend_name)).locked = true ∧
    (lock (compile p st.base.backend_name)).backend = some st.base.backend_name ∧
    (res = Except.error RunError.duplicateSubmission → evs = []) := by
  unfold starshipRun starship_run_program at h
  by_cases hb : st.jobs.isEmpty
  · simp only [hb, if_true] at h
    cases hp : pollLoop script.statuses script.interruptAt with
    | none => rw [hp] at h; cases h
    | some outcome =>
      rw [hp] at h
      cases outcome with
      | failed =>
        cases h
        refine ⟨rfl, rfl, rfl, ?_⟩
        intro he; cases he
      | completed =>
        cases h
        refine ⟨rfl, rfl, rfl, ?_⟩
        intro he; cases he
      | interrupted =>
        cases hid : script.jobId with
        | some i =>
          rw [hid] at h
          cases h
          refine ⟨rfl, rfl, rfl, ?_⟩
          intro he; cases he
        | none =>
          rw [hid] at h
          cases h
          refine ⟨rfl, rfl, rfl, ?_⟩
          intro he; cases he
  · simp only [Bool.not_eq_true] at hb
    simp only [hb, Bool.false_eq_true, if_false] at h
    cases h
    exact ⟨rfl, rfl, rfl, fun _ => rfl⟩

/-- A one-register program used by the `hardware_run_locked_in_history`
witness. -/
def chainWitnessProg : Program :=
  { name := "H", init_num_subsystems := 1, circuit := [],
    reg_refs := [pnone], backend := Option.none, locked := false }

/-- Witness for `hardware_run_locked_in_history`: a duplicate-submission
failure on a busy engine still has the freshly locked unit in history. -/
theorem hardware_run_locked_in_history_witness :
    ({ base := { backend_name := "chip0", backend_options := [],
                 run_progs := [lock (compile chainWitnessProg "chip0")],
                 samples := Samples.pyNone },
       jobs := [{ id := some 7 }] } : StarState).base.run_progs =
      ({ base := freshEngine "chip0" [], jobs := [{ id := some 7 }] } : StarState).base.run_progs ++
        [lock (compile chainWitnessProg "chip0")] ∧
    (lock (compile chainWitnessProg "chip0")).locked = true ∧
    (lock (compile chainWitnessProg "chip0")).backend = some "chip0" ∧
    (Except.error RunError.duplicateSubmission =
        (Except.error RunError.duplicateSubmission :
          Except RunError (Option (List PyVal))) →
      ([] : List ServiceEvent) = []) :=
  hardware_run_locked_in_history
    { base := freshEngine "chip0" [], jobs := [{ id := some 7 }] }
    chainWitnessProg
    { jobId := some 7, statuses := [], payload := [], interruptAt := Option.none }
    (Except.error RunError.duplicateSubmission)
    { base := { backend_name := "chip0", backend_options := [],
                run_progs := [lock (compile chainWitnessProg "chip0")],
                samples := Samples.pyNone },
      jobs := [{ id := some 7 }] }
    [] (by decide)

/-- Compiling for a backend does not change the declared register count. -/
theorem init_compileIfNeeded (p : Program) (b : String) :
    (compileIfNeeded p b).init_num_subsystems = p.init_num_subsystems := by
  unfold compileIfNeeded
  split <;> rfl

/-- Compiling for a backend does not change the command list. -/
theorem circuit_compileIfNeeded (p : Program) (b : String) :
    (compileIfNeeded p b).circuit = p.circuit := by
  unfold compileIfNeeded
  split <;> rfl

/-- Compiling for a backend does not change the register references. -/
theorem reg_refs_compileIfNeeded (p : Program) (b : String) :
    (compileIfNeeded p b).reg_refs = p.reg_refs := by
  unfold compileIfNeeded
  split <;> rfl

/-- Compiling, locking and executing a program preserve its declared
register count, so `can_follow` can be checked against the original unit. -/
theorem init_processed (shots : Nat) (p : Program) (b : String) :
    ((local_run_program shots (lock (compileIfNeeded p b))).1).init_num_subsystems =
      p.init_num_subsystems := by
  simp [local_run_program, lock, init_compileIfNeeded]

/-- C3: running a first unit followed by a unit that fails the compatibility
predicate raises the registration-mismatch error naming the offending unit's
position (1, since only the first unit is in history), and afterwards the run
history contains exactly the executed first unit, while the backend saw only
the initialization and the first unit's commands — the incompatible unit was
never appended or executed. -/
theorem register_mismatch_aborts (shots : Nat) (b : String)
    (o : List (String × Int)) (p1 p2 : Program)
    (h : can_follow p2 p1 = false) :
    (localRun shots [p1, p2] (freshEngine b o)).1 =
      Except.error (RunError.regMismatch 1 p2.name) ∧
    (localRun shots [p1, p2] (freshEngine b o)).2.1.run_progs =
      [(local_run_program shots (lock (compileIfNeeded p1 b))).1] ∧
    (localRun shots [p1, p2] (freshEngine b o)).2.2 =
      BackendEvent.beginCircuit p1.init_num_subsystems ::
        (local_run_program shots (lock (compileIfNeeded p1 b))).2.1 := by
  have hf : can_follow p2 ((local_run_program shots (lock (compileIfNeeded p1 b))).1) = false := by
    rw [can_follow] at h ⊢
    rw [init_processed]
    exact h
  refine ⟨?_, ?_, ?_⟩ <;>
    simp [localRun, runSegs, execSeg, freshEngine, hf]

/-- A 1-register unit used by the `register_mismatch_aborts` witness. -/
def mismatchA : Program :=
  { name := "A1", init_num_subsystems := 1, circuit := [],
    reg_refs := [pnone], backend := Option.none, locked := false }

/-- A 2-register unit, incompatible with `mismatchA`, used by the
`register_mismatch_aborts` witness. -/
def mismatchB : Program :=
  { name := "B2", init_num_subsystems := 2, circuit := [],
    reg_refs := [pnone, pnone], backend := Option.none, locked := false }

/-- Witness for `register_mismatch_aborts`: a 1-register unit followed by an
incompatible 2-register unit. -/
theorem register_mismatch_aborts_witness :
    (localRun 1 [mismatchA, mismatchB] (freshEngine "fock" [])).1 =
      Except.error (RunError.regMismatch 1 mismatchB.name) ∧
    (localRun 1 [mismatchA, mismatchB] (freshEngine "fock" [])).2.1.run_progs =
      [(local_run_program 1 (lock (compileIfNeeded mismatchA "fock"))).1] ∧
    (localRun 1 [mismatchA, mismatchB] (freshEngine "fock" [])).2.2 =
      BackendEvent.beginCircuit mismatchA.init_num_subsystems ::
        (local_run_program 1 (lock (compileIfNeeded mismatchA "fock"))).2.1 :=
  register_mismatch_aborts 1 "fock" [] mismatchA mismatchB (by decide)

/-- Assigning key `k` makes lookup of `k` return the assigned value. -/
theorem dictGet_dictSet_self (d : List (String × Int)) (k : String) (v : Int) :
    dictGet (dictSet d k v) k = some v := by
  induction d with
  | nil =>
    unfold dictSet dictGet
    rw [List.find?_cons_of_pos _ (by simp)]
    rfl
  | cons kv rest ih =>
    by_cases hk : (kv.1 == k) = true
    · simp only [dictSet, if_pos hk]
      unfold dictGet
      rw [List.find?_cons_of_pos _ (by simp)]
      rfl
    · simp only [dictSet, if_neg hk]
      unfold dictGet
      rw [List.find?_cons_of_neg _ (by simpa using hk)]
      exact ih

/-- Assigning key `k` does not change lookup of any other key. -/
theorem dictGet_dictSet_ne (d : List (String × Int)) (k k' : String) (v : Int)
    (hne : k' ≠ k) :
    dictGet (dictSet d k v) k' = dictGet d k' := by
  induction d with
  | nil =>
    unfold dictSet dictGet
    rw [List.find?_cons_of_neg _ (by simp; exact fun h => hne h.symm)]
  | cons kv rest ih =>
    by_cases hk : (kv.1 == k) = true
    · simp only [dictSet, if_pos hk]
      unfold dictGet
      rw [List.find?_cons_of_neg _ (by simp; exact fun h => hne h.symm),
          List.find?_cons_of_neg _ (by
            have hkk : kv.1 = k := by simpa using hk
            simp [hkk]; exact fun h => hne h.symm)]
    · simp only [dictSet, if_neg hk]
      by_cases hk' : (kv.1 == k') = true
      · unfold dictGet
        rw [List.find?_cons_of_pos _ (by simpa using hk'),
            List.find?_cons_of_pos _ (by simpa using hk')]
      · unfold dictGet
        rw [List.find?_cons_of_neg _ (by simpa using hk'),
            List.find?_cons_of_neg _ (by simpa using hk')]
        exact ih

/-- Lookup of a key absent from the association list returns nothing. -/
theorem dictGet_eq_none_of_not_mem (d : List (String × Int)) (k : String)
    (h : k ∉ d.map Prod.fst) :
    dictGet d k = none := by
  unfold dictGet
  have hfind : d.find? (fun kv => kv.1 == k) = none := by
    rw [List.find?_eq_none]
    intro x hx hpx
    exact h (List.mem_map.mpr ⟨x, hx, by simpa using hpx⟩)
  rw [hfind]
  rfl

/-- Python `old.update(new)` merge semantics: when `new` has no duplicate
keys (as a Python dict cannot), a lookup in the updated dict prefers the
entry of `new` and falls back to `old`. -/
theorem dictGet_dictUpdate (old new : List (String × Int)) (k : String)
    (hnodup : (new.map Prod.fst).Nodup) :
    dictGet (dictUpdate old new) k = (dictGet new k).or (dictGet old k) := by
  induction new generalizing old with
  | nil => simp [dictUpdate, dictGet]
  | cons kv rest ih =>
    have hnotin : kv.1 ∉ rest.map Prod.fst := by
      simp only [List.map_cons, List.nodup_cons] at hnodup
      exact hnodup.1
    have hrest : (rest.map Prod.fst).Nodup := by
      simp only [List.map_cons, List.nodup_cons] at hnodup
      exact hnodup.2
    have hstep : dictUpdate old (kv :: rest) = dictUpdate (dictSet old kv.1 kv.2) rest := by
      rfl
    rw [hstep, ih (dictSet old kv.1 kv.2) hrest]
    by_cases hk : k = kv.1
    · have h1 : dictGet rest k = none := by
        rw [hk]
        exact dictGet_eq_none_of_not_mem rest kv.1 hnotin
      have h2 : dictGet (kv :: rest) k = some kv.2 := by
        unfold dictGet
        rw [List.find?_cons_of_pos _ (by simp [hk])]
        rfl
      rw [h1, h2, hk, dictGet_dictSet_self]
      simp
    · have h2 : dictGet (kv :: rest) k = dictGet rest k := by
        unfold dictGet
        have hpred : ¬((kv.1 == k) = true) := by
          intro hp
          have hkv : kv.1 = k := by simpa using hp
          exact hk hkv.symm
        rw [@List.find?_cons_of_neg _ (fun kv => kv.1 == k) kv rest hpred]
      rw [h2, dictGet_dictSet_ne old kv.1 k kv.2 hk]

/-- C8: after `reset`, the run history is empty, the cached sample set is
cleared, the backend name is unchanged, every previously-run unit's register
references report "no value" while its name, command list and register count
are untouched, and a lookup in the merged backend options prefers the
caller-supplied entry and falls back to the stored default. -/
theorem reset_contract (st : EngineState) (opts : List (String × Int)) (k : String)
    (hnodup : (opts.map Prod.fst).Nodup) :
    (reset st opts).1.run_progs = [] ∧
    (reset st opts).1.samples = Samples.pyNone ∧
    (reset st opts).1.backend_name = st.backend_name ∧
    (reset st opts).2.all (fun p => p.reg_refs.all (fun v => v == pnone)) = true ∧
    (reset st opts).2.map Program.name = st.run_progs.map Program.name ∧
    (reset st opts).2.map Program.circuit = st.run_progs.map Program.circuit ∧
    (reset st opts).2.map (fun p => p.reg_refs.length) =
      st.run_progs.map (fun p => p.reg_refs.length) ∧
    dictGet (reset st opts).1.backend_options k =
      (dictGet opts k).or (dictGet st.backend_options k) := by
  refine ⟨rfl, rfl, rfl, ?_, ?_, ?_, ?_, ?_⟩
  · simp [reset, clear_regrefs, List.all_map, Function.comp, pnone]
  · simp [reset, clear_regrefs, List.map_map, Function.comp]
  · simp [reset, clear_regrefs, List.map_map, Function.comp]
  · simp [reset, clear_regrefs, List.map_map, Function.comp]
  · exact dictGet_dictUpdate st.backend_options opts k hnodup

/-- A previously-run program with a measured register, used by the
`reset_contract` witness. -/
def resetProg : Program :=
  { name := "R", init_num_subsystems := 1, circuit := [],
    reg_refs := [pnum 3], backend := some "fock", locked := true }

/-- Witness for `reset_contract` on an engine that has run one program with
a measured value, resetting with one overriding option. -/
theorem reset_contract_witness :
    (reset { backend_name := "fock", backend_options := [("cutoff", 5)],
             run_progs := [resetProg],
             samples := Samples.mapIter [pnum 3] true } [("cutoff", 9)]).1.run_progs = [] ∧
    (reset { backend_name := "fock", backend_options := [("cutoff", 5)],
             run_progs := [resetProg],
             samples := Samples.mapIter [pnum 3] true } [("cutoff", 9)]).1.samples =
      Samples.pyNone ∧
    (reset { backend_name := "fock", backend_options := [("cutoff", 5)],
             run_progs := [resetProg],
             samples := Samples.mapIter [pnum 3] true } [("cutoff", 9)]).1.backend_name =
      ({ backend_name := "fock", backend_options := [("cutoff", 5)],
         run_progs := [resetProg],
         samples := Samples.mapIter [pnum 3] true } : EngineState).backend_name ∧
    (reset { backend_name := "fock", backend_options := [("cutoff", 5)],
             run_progs := [resetProg],
             samples := Samples.mapIter [pnum 3] true } [("cutoff", 9)]).2.all
      (fun p => p.reg_refs.all (fun v => v == pnone)) = true ∧
    (reset { backend_name := "fock", backend_options := [("cutoff", 5)],
             run_progs := [resetProg],
             samples := Samples.mapIter [pnum 3] true } [("cutoff", 9)]).2.map Program.name =
      [resetProg].map Program.name ∧
    (reset { backend_name := "fock", backend_options := [("cutoff", 5)],
             run_progs := [resetProg],
             samples := Samples.mapIter [pnum 3] true } [("cutoff", 9)]).2.map Program.circuit =
      [resetProg].map Program.circuit ∧
    (reset { backend_name := "fock", backend_options := [("cutoff", 5)],
             run_progs := [resetProg],
             samples := Samples.mapIter [pnum 3] true } [("cutoff", 9)]).2.map
        (fun p => p.reg_refs.length) =
      [resetProg].map (fun p => p.reg_refs.length) ∧
    dictGet (reset { backend_name := "fock", backend_options := [("cutoff", 5)],
                     run_progs := [resetProg],
                     samples := Samples.mapIter [pnum 3] true } [("cutoff", 9)]).1.backend_options
        "cutoff" =
      (dictGet [("cutoff", 9)] "cutoff").or
        (dictGet [("cutoff", 5)] "cutoff") :=
  reset_contract
    { backend_name := "fock", backend_options := [("cutoff", 5)],
      run_progs := [resetProg], samples := Samples.mapIter [pnum 3] true }
    [("cutoff", 9)] "cutoff" (by decide)

/-- Whether a backend call is a circuit initialization. -/
def isBegin : BackendEvent → Bool
  | BackendEvent.beginCircuit _ => true
  | BackendEvent.applyOp _ => false

/-- Command applications are never circuit initializations. -/
theorem filter_isBegin_applyOps (l : List Cmd) :
    (l.map BackendEvent.applyOp).filter isBegin = [] := by
  induction l with
  | nil => rfl
  | cons c cs ih =>
    simp only [List.map_cons, List.filter_cons]
    rw [show isBegin (BackendEvent.applyOp c) = false from rfl]
    simpa using ih

/-- Once a previous segment exists, the run loop never initializes the
backend again: its log contains no `beginCircuit` call. -/
theorem runSegs_some_no_begin (shots : Nat) :
    ∀ (progs : List Program) (pr : Program) (st : EngineState),
      ((runSegs shots progs (some pr) st).2.1).filter isBegin = [] := by
  intro progs
  induction progs with
  | nil => intro pr st; rfl
  | cons p rest ih =>
    intro pr st
    by_cases hcf : can_follow p pr = true
    · cases hd : drain st.samples with
      | error e =>
        simp [runSegs, hcf, hd]
      | ok vs =>
        simp [runSegs, hcf, hd, List.filter_append, execSeg, local_run_program,
              filter_isBegin_applyOps, ih]
    · simp [runSegs, hcf]

/-- The backend-call log of `_run` is the log of its segment loop: the final
`Result(list(self.samples))` step makes no backend call. -/
theorem localRun_log (shots : Nat) (progs : List Program) (st : EngineState) :
    (localRun shots progs st).2.2 =
      (runSegs shots progs st.run_progs.getLast? st).2.1 := by
  unfold localRun
  rcases h : runSegs shots progs st.run_progs.getLast? st with ⟨st1, evs, err⟩
  cases err with
  | none =>
    cases hd : drain st1.samples with
    | error e => simp [hd]
    | ok v =>
      rcases v with ⟨vals, s'⟩
      simp [hd]
  | some e => simp

/-- C9: in every local run call, the backend circuit is initialized exactly
once when the run history is empty at call time and the program list is
non-empty — with the first unit's declared register count — and never
otherwise; in particular units processed while history is non-empty never
re-initialize the backend. -/
theorem begin_circuit_once (shots : Nat) (progs : List Program) (st : EngineState) :
    ((localRun shots progs st).2.2).filter isBegin =
      (match st.run_progs, progs with
       | [], q :: _ => [BackendEvent.beginCircuit q.init_num_subsystems]
       | _, _ => []) := by
  rw [localRun_log]
  cases hrp : st.run_progs with
  | nil =>
    cases progs with
    | nil => rfl
    | cons q rest =>
      simp only [List.getLast?_nil]
      simp [runSegs, List.filter_cons, isBegin, List.filter_append, execSeg,
            local_run_program, filter_isBegin_applyOps, runSegs_some_no_begin]
  | cons r rs =>
    have : ∃ x, (r :: rs).getLast? = some x := by
      cases h : (r :: rs).getLast? with
      | none => exact absurd (List.getLast?_eq_none_iff.mp h) (by simp)
      | some x => exact ⟨x, rfl⟩
    rcases this with ⟨x, hx⟩
    rw [hx, runSegs_some_no_begin]

/-- Whether a sample value is a Python list of exactly `S` entries. -/
def isListLen (S : Nat) : PyVal → Bool
  | PyVal.list xs => xs.length == S
  | PyVal.atom _ => false

/-- Whether a command measures register `k`. -/
def measuresReg (c : Cmd) (k : Nat) : Bool :=
  match c.op with
  | OpKind.measure _ => c.reg.contains k
  | OpKind.gate => false

/-- A register-reference value arising in a `shots = S` run: either still
unmeasured (`None`) or a per-trial list of `S` entries. -/
def goodVal (S : Nat) (v : PyVal) : Bool := v == pnone || isListLen S v

/-- Every value yielded by the cached sample iterator is an `S`-entry list. -/
def goodSamples (S : Nat) : Samples → Bool
  | Samples.pyNone => true
  | Samples.mapIter vals _ => vals.all (isListLen S)

/-- Setting an element preserves a predicate holding on all elements. -/
theorem all_set {α : Type} (p : α → Bool) :
    ∀ (l : List α) (i : Nat) (v : α),
      l.all p = true → p v = true → (l.set i v).all p = true := by
  intro l
  induction l with
  | nil => intro i v h _; exact h
  | cons a as ih =>
    intro i v h hv
    rw [List.all_cons] at h
    rcases Bool.and_eq_true_iff.mp h with ⟨ha, has⟩
    cases i with
    | zero => simp [List.set, List.all_cons, hv, has]
    | succ n => simp [List.set, List.all_cons, ha, ih n v has hv]

/-- With `S > 1` shots, a measurement stores an `S`-entry per-trial list. -/
theorem goodVal_measuredVal (S : Nat) (hS : 1 < S) (v : Int) :
    goodVal S (measuredVal S v) = true := by
  unfold measuredVal
  rw [if_pos hS]
  simp [goodVal, isListLen]

/-- Storing a good value into any registers keeps all references good. -/
theorem goodRefs_storeMeasured (S : Nat) (rs : List PyVal) (ts : List Nat) (v : PyVal)
    (hrs : rs.all (goodVal S) = true) (hv : goodVal S v = true) :
    (storeMeasured rs ts v).all (goodVal S) = true := by
  unfold storeMeasured
  induction ts generalizing rs with
  | nil => exact hrs
  | cons t ts' ih =>
    rw [List.foldl_cons]
    exact ih _ (all_set (goodVal S) rs t v hrs hv)

/-- Applying one command in a `shots = S` run keeps all references good. -/
theorem goodRefs_applyCmd (S : Nat) (hS : 1 < S) (rs : List PyVal) (c : Cmd)
    (h : rs.all (goodVal S) = true) :
    (applyCmd S rs c).all (goodVal S) = true := by
  unfold applyCmd
  cases hc : c.op with
  | gate => exact h
  | measure v => exact goodRefs_storeMeasured S rs c.reg _ h (goodVal_measuredVal S hS v)

/-- Executing a whole command list in a `shots = S` run keeps all references
good. -/
theorem goodRefs_foldl (S : Nat) (hS : 1 < S) (circuit : List Cmd) :
    ∀ rs, rs.all (goodVal S) = true →
      (circuit.foldl (fun acc c => applyCmd S acc c) rs).all (goodVal S) = true := by
  induction circuit with
  | nil => intro rs h; exact h
  | cons c cs ih =>
    intro rs h
    rw [List.foldl_cons]
    exact ih _ (goodRefs_applyCmd S hS rs c h)

/-- Normalizing a good value yields an `S`-entry per-trial list. -/
theorem isListLen_normalize (S : Nat) (hS : 1 < S) (v : PyVal)
    (h : goodVal S v = true) : isListLen S (normalize_sample S v) = true := by
  by_cases hv : v = pnone
  · unfold normalize_sample
    rw [if_pos ⟨hv, hS⟩]
    simp [isListLen]
  · have hv2 : isListLen S v = true := by
      unfold goodVal at h
      rcases Bool.or_eq_true_iff.mp h with h1 | h2
      · exact absurd (by simpa using h1) hv
      · exact h2
    unfold normalize_sample
    rw [if_neg (fun hc => hv hc.1)]
    exact hv2

/-- The rebuilt sample map of a `shots = S` segment yields only `S`-entry
lists. -/
theorem all_map_normalize (S : Nat) (hS : 1 < S) (rs : List PyVal)
    (h : rs.all (goodVal S) = true) :
    (rs.map (normalize_sample S)).all (isListLen S) = true := by
  rw [List.all_map]
  rw [List.all_eq_true] at h ⊢
  intro x hx
  exact isListLen_normalize S hS x (h x hx)

/-- Copying `S`-entry sample lists into good references keeps them good. -/
theorem copyVals_good (S : Nat) :
    ∀ (vs rs : List PyVal), rs.all (goodVal S) = true → vs.all (isListLen S) = true →
      (copyVals rs vs).all (goodVal S) = true := by
  intro vs
  induction vs with
  | nil =>
    intro rs h _
    rw [show copyVals rs [] = rs from by cases rs <;> rfl]
    exact h
  | cons v vs' ih =>
    intro rs h hv
    rw [List.all_cons] at hv
    rcases Bool.and_eq_true_iff.mp hv with ⟨hv1, hv2⟩
    cases rs with
    | nil => rfl
    | cons r rs' =>
      rw [List.all_cons] at h
      rcases Bool.and_eq_true_iff.mp h with ⟨_, h2⟩
      rw [show copyVals (r :: rs') (v :: vs') = v :: copyVals rs' vs' from rfl,
          List.all_cons]
      refine Bool.and_eq_true_iff.mpr ⟨?_, ih rs' h2 hv2⟩
      unfold goodVal
      rw [hv1]
      simp

/-- Draining a good sample iterator yields only `S`-entry lists and leaves a
good iterator behind. -/
theorem drain_good (S : Nat) (sa : Samples) (vals : List PyVal) (s' : Samples)
    (hg : goodSamples S sa = true) (hd : drain sa = Except.ok (vals, s')) :
    vals.all (isListLen S) = true ∧ goodSamples S s' = true := by
  cases sa with
  | pyNone => cases hd
  | mapIter vs c =>
    unfold drain at hd
    cases hd
    refine ⟨?_, hg⟩
    cases c with
    | true => rfl
    | false => exact hg

/-- The sample map rebuilt after executing a segment with good references in
a `shots = S` run is good. -/
theorem execSeg_samples_good (S : Nat) (hS : 1 < S) (p : Program) (st : EngineState)
    (hp : p.reg_refs.all (goodVal S) = true) :
    goodSamples S (execSeg S p st).2.1.samples = true := by
  show ((local_run_program S (lock (compileIfNeeded p st.backend_name))).1.reg_refs.map
        (normalize_sample S)).all (isListLen S) = true
  have hstart : (lock (compileIfNeeded p st.backend_name)).reg_refs.all (goodVal S) = true := by
    rw [show (lock (compileIfNeeded p st.backend_name)).reg_refs =
          (compileIfNeeded p st.backend_name).reg_refs from rfl,
        reg_refs_compileIfNeeded]
    exact hp
  exact all_map_normalize S hS _ (goodRefs_foldl S hS _ _ hstart)

/-- Through the whole segment loop of a `shots = S` run over programs with
good references, the cached sample iterator stays good. -/
theorem runSegs_samples_good (S : Nat) (hS : 1 < S) :
    ∀ (progs : List Program) (prev : Option Program) (st : EngineState),
      progs.all (fun q => q.reg_refs.all (goodVal S)) = true →
      goodSamples S st.samples = true →
      goodSamples S ((runSegs S progs prev st).1.samples) = true := by
  intro progs
  induction progs with
  | nil => intro prev st _ hst; exact hst
  | cons p rest ih =>
    intro prev st hall hst
    rw [List.all_cons] at hall
    rcases Bool.and_eq_true_iff.mp hall with ⟨hp, hrest⟩
    cases prev with
    | none =>
      have hred : (runSegs S (p :: rest) Option.none st).1 =
          (runSegs S rest (some (execSeg S p st).1) (execSeg S p st).2.1).1 := rfl
      rw [hred]
      exact ih _ _ hrest (execSeg_samples_good S hS p st hp)
    | some pr =>
      by_cases hcf : can_follow p pr = true
      · cases hd : drain st.samples with
        | error e =>
          have hred : (runSegs S (p :: rest) (some pr) st).1 = st := by
            simp [runSegs, hcf, hd]
          rw [hred]; exact hst
        | ok vsp =>
          rcases vsp with ⟨vals, s'⟩
          rcases drain_good S st.samples vals s' hst hd with ⟨hvals, hs'⟩
          have hp' : ({ p with reg_refs := copyVals p.reg_refs vals } : Program).reg_refs.all
              (goodVal S) = true := copyVals_good S vals p.reg_refs hp hvals
          have hred : (runSegs S (p :: rest) (some pr) st).1 =
              (runSegs S rest
                (some (execSeg S { p with reg_refs := copyVals p.reg_refs vals }
                        { st with samples := s' }).1)
                (execSeg S { p with reg_refs := copyVals p.reg_refs vals }
                        { st with samples := s' }).2.1).1 := by
            simp [runSegs, hcf, hd]
          rw [hred]
          exact ih _ _ hrest (execSeg_samples_good S hS _ _ hp')
      · have hred : (runSegs S (p :: rest) (some pr) st).1 = st := by
          simp [runSegs, hcf]
        rw [hred]; exact hst

/-- A single-program run on a fresh engine returns the program's register
references after executing its commands, each normalized per shot count. -/
theorem localRun_single_fst (shots : Nat) (p : Program) (b : String)
    (o : List (String × Int)) :
    (localRun shots [p] (freshEngine b o)).1 =
      Except.ok ((p.circuit.foldl (fun acc c => applyCmd shots acc c) p.reg_refs).map
        (normalize_sample shots)) := by
  simp [localRun, runSegs, execSeg, local_run_program, freshEngine, drain,
        lock, circuit_compileIfNeeded, reg_refs_compileIfNeeded]

/-- Storing into registers other than `k` leaves reference `k` unchanged. -/
theorem getElem?_storeMeasured_ne (k : Nat) :
    ∀ (ts : List Nat) (rs : List PyVal) (v : PyVal), ts.contains k = false →
      (storeMeasured rs ts v)[k]? = rs[k]? := by
  intro ts
  induction ts with
  | nil => intro rs v _; rfl
  | cons t ts' ih =>
    intro rs v hc
    rw [List.contains_cons] at hc
    rcases Bool.or_eq_false_iff.mp hc with ⟨hc1, hc2⟩
    have hne : t ≠ k := fun h => by simp [h] at hc1
    unfold storeMeasured
    rw [List.foldl_cons]
    have := ih (rs.set t v) v hc2
    unfold storeMeasured at this
    rw [this, List.getElem?_set_ne hne]

/-- A command list that never measures register `k` leaves reference `k`
unchanged. -/
theorem getElem?_foldl_unmeasured (shots k : Nat) :
    ∀ (circuit : List Cmd) (rs : List PyVal),
      circuit.all (fun c => !(measuresReg c k)) = true →
      (circuit.foldl (fun acc c => applyCmd shots acc c) rs)[k]? = rs[k]? := by
  intro circuit
  induction circuit with
  | nil => intro rs _; rfl
  | cons c cs ih =>
    intro rs hall
    rw [List.all_cons] at hall
    rcases Bool.and_eq_true_iff.mp hall with ⟨h1, h2⟩
    have h1' : measuresReg c k = false := by
      cases hm : measuresReg c k
      · rfl
      · rw [hm] at h1; cases h1
    have hrs : (applyCmd shots rs c)[k]? = rs[k]? := by
      unfold applyCmd
      unfold measuresReg at h1'
      cases hc : c.op with
      | gate => rfl
      | measure v =>
        rw [hc] at h1'
        exact getElem?_storeMeasured_ne k c.reg rs _ h1'
    rw [List.foldl_cons, ih _ h2, hrs]

/-- In a list of unmeasured references, reference `k` reads as `None`. -/
theorem getElem?_of_all_pnone (rs : List PyVal) (k : Nat)
    (h : rs.all (fun v => v == pnone) = true) (hk : k < rs.length) :
    rs[k]? = some pnone := by
  rw [List.getElem?_eq_getElem hk]
  have hmem : rs[k] ∈ rs := List.getElem_mem hk
  rw [List.all_eq_true] at h
  have := h rs[k] hmem
  simp only [beq_iff_eq] at this
  rw [this]

/-- C4: in a `shots = S > 1` local run of fresh programs, every entry of the
returned sample list is a per-trial list of exactly `S` entries; a register
never measured by its program comes back as a list of `S` "no value"
placeholders, while in a `shots = 1` run such a register's sample stays the
single placeholder. -/
theorem shots_sample_normalization (S : Nat) (b : String) (o : List (String × Int))
    (progs : List Program) (p : Program) (k : Nat)
    (vals valsp vals1 : List PyVal)
    (hS : 1 < S)
    (hfresh : progs.all (fun q => q.reg_refs.all (fun v => v == pnone)) = true)
    (hrun : (localRun S progs (freshEngine b o)).1 = Except.ok vals)
    (hpfresh : p.reg_refs.all (fun v => v == pnone) = true)
    (hk : k < p.reg_refs.length)
    (hunmeas : p.circuit.all (fun c => !(measuresReg c k)) = true)
    (hrunp : (localRun S [p] (freshEngine b o)).1 = Except.ok valsp)
    (hrun1 : (localRun 1 [p] (freshEngine b o)).1 = Except.ok vals1) :
    vals.all (isListLen S) = true ∧
    valsp.getD k pnone = PyVal.list (List.replicate S PyAtom.pynone) ∧
    vals1.getD k pnone = pnone := by
  refine ⟨?_, ?_, ?_⟩
  · have hgood : progs.all (fun q => q.reg_refs.all (goodVal S)) = true := by
      rw [List.all_eq_true] at hfresh ⊢
      intro q hq
      have := hfresh q hq
      rw [List.all_eq_true] at this ⊢
      intro v hv
      unfold goodVal
      rw [this v hv]
      rfl
    have hsam : goodSamples S ((runSegs S progs ([] : List Program).getLast?
        (freshEngine b o)).1.samples) = true :=
      runSegs_samples_good S hS progs ([] : List Program).getLast? (freshEngine b o)
        hgood rfl
    revert hrun
    unfold localRun
    rcases hseg : runSegs S progs (freshEngine b o).run_progs.getLast? (freshEngine b o)
      with ⟨st1, evs, err⟩
    have hsam1 : goodSamples S st1.samples = true := by
      have : (freshEngine b o).run_progs.getLast? = ([] : List Program).getLast? := rfl
      rw [this] at hseg
      rw [show st1 = (runSegs S progs ([] : List Program).getLast? (freshEngine b o)).1 from
            by rw [hseg]] at *
      exact hsam
    cases err with
    | some e => intro hrun; cases hrun
    | none =>
      cases hd : drain st1.samples with
      | error e => intro hrun; simp [hd] at hrun
      | ok vsp =>
        rcases vsp with ⟨vs, s'⟩
        intro hrun
        simp only [hd] at hrun
        have hv : vs = vals := by
          cases hrun
          rfl
        rw [← hv]
        exact (drain_good S st1.samples vs s' hsam1 hd).1
  · have hvalsp : valsp =
        ((p.circuit.foldl (fun acc c => applyCmd S acc c) p.reg_refs).map
          (normalize_sample S)) := by
      have := localRun_single_fst S p b o
      rw [hrunp] at this
      exact (Except.ok.injEq _ _).mp this
    rw [hvalsp, List.getD_eq_getElem?_getD, List.getElem?_map,
        getElem?_foldl_unmeasured S k p.circuit p.reg_refs hunmeas,
        getElem?_of_all_pnone p.reg_refs k hpfresh hk]
    show normalize_sample S pnone = PyVal.list (List.replicate S PyAtom.pynone)
    unfold normalize_sample
    rw [if_pos ⟨rfl, hS⟩]
  · have hvals1 : vals1 =
        ((p.circuit.foldl (fun acc c => applyCmd 1 acc c) p.reg_refs).map
          (normalize_sample 1)) := by
      have := localRun_single_fst 1 p b o
      rw [hrun1] at this
      exact (Except.ok.injEq _ _).mp this
    rw [hvals1, List.getD_eq_getElem?_getD, List.getElem?_map,
        getElem?_foldl_unmeasured 1 k p.circuit p.reg_refs hunmeas,
        getElem?_of_all_pnone p.reg_refs k hpfresh hk]
    show normalize_sample 1 pnone = pnone
    unfold normalize_sample
    rw [if_neg (fun hc => absurd hc.2 (by decide))]

/-- A 1-register program measuring its register, used by the
`shots_sample_normalization` witness. -/
def shotsProgQ : Program :=
  { name := "Q", init_num_subsystems := 1,
    circuit := [{ op := OpKind.measure 5, reg := [0] }],
    reg_refs := [pnone], backend := Option.none, locked := false }

/-- A 2-register program measuring only register 0, used by the
`shots_sample_normalization` witness (register 1 stays unmeasured). -/
def shotsProgP : Program :=
  { name := "P", init_num_subsystems := 2,
    circuit := [{ op := OpKind.measure 5, reg := [0] }],
    reg_refs := [pnone, pnone], backend := Option.none, locked := false }

/-- Witness for `shots_sample_normalization` with `S = 2`: the measured
register holds a 2-entry list, the unmeasured register holds two placeholders
(and a single placeholder when `shots = 1`). -/
theorem shots_sample_normalization_witness :
    ([PyVal.list [PyAtom.num 5, PyAtom.num 5]] : List PyVal).all (isListLen 2) = true ∧
    ([PyVal.list [PyAtom.num 5, PyAtom.num 5],
      PyVal.list [PyAtom.pynone, PyAtom.pynone]] : List PyVal).getD 1 pnone =
      PyVal.list (List.replicate 2 PyAtom.pynone) ∧
    ([pnum 5, pnone] : List PyVal).getD 1 pnone = pnone :=
  shots_sample_normalization 2 "fock" [] [shotsProgQ] shotsProgP 1
    [PyVal.list [PyAtom.num 5, PyAtom.num 5]]
    [PyVal.list [PyAtom.num 5, PyAtom.num 5], PyVal.list [PyAtom.pynone, PyAtom.pynone]]
    [pnum 5, pnone]
    (by decide) (by decide) (by decide) (by decide) (by decide) (by decide)
    (by decide) (by decide)

end SFEngine
